import Mathlib

/-!
Shallow embedding of the PDF-manipulation module `backend/pdf_functions.py`.

A PDF document is modelled as a `List Page`.  A page carries its media-box
rectangle, its rotation value, an abstract content identifier, and the list
of text stamps inserted onto it.  File-system effects are modelled
explicitly: functions that write several files return the list of
`(path, document)` pairs in the order the files are written, together with
an optional error; functions that write a single file at the end return
`Except`, since nothing reaches the disk when they raise.

Library calls are modelled at their documented interface granularity:
`insert_pdf` copies a page span, `delete_page` raises on an out-of-range
index, `set_rotation r` stores `r % 360`, `save` on a document with zero
pages raises, and `save` never changes the page list (compression flags
only affect the byte-level encoding of the output file).
-/

/-- Axis-aligned rectangle, the model of a fitz rectangle. -/
structure Rect where
  x0 : ℚ
  y0 : ℚ
  x1 : ℚ
  y1 : ℚ
deriving DecidableEq

def Rect.width (r : Rect) : ℚ := r.x1 - r.x0

def Rect.height (r : Rect) : ℚ := r.y1 - r.y0

/-- Text stamp inserted by `Page.insert_text`. -/
structure Stamp where
  pos : ℚ × ℚ
  text : String
  fontsize : ℚ
  color : ℚ × ℚ × ℚ
deriving DecidableEq

/-- Model of a PDF page: rectangle, rotation, abstract content identity and
the text stamps inserted on top of the content. -/
structure Page where
  rect : Rect
  rotation : Int
  content : Nat
  stamps : List Stamp
deriving DecidableEq

/-- Model of `doc.insert_pdf(src)` without page arguments: appends all pages
of `src` at the end of `doc`. -/
def insert_pdf (doc src : List Page) : List Page := doc ++ src

/-- Model of `merge_pdfs` (pdf_functions.py lines 62-79): open an empty
document, insert every input document in list order, save.  The save raises
when the merged document has zero pages (empty input list, or every input
empty), writing nothing. -/
def merge_pdfs (input_pdfs : List (List Page)) : Except String (List Page) :=
  let doc := input_pdfs.foldl (fun doc src => insert_pdf doc src) []
  if doc.isEmpty then .error "cannot save with zero pages" else .ok doc

/-- Model of `os.path.join(folder, name)` for a folder without a trailing
separator. -/
def joinPath (folder name : String) : String := folder ++ "/" ++ name

/-- Model of `output_doc.insert_pdf(src, from_page=a, to_page=b)`: copies the
pages `a..b` inclusive; when `a > b` the library copies the span in reverse
order. -/
def pdfSpan (src : List Page) (a b : Nat) : List Page :=
  if a ≤ b then (src.drop a).take (b + 1 - a)
  else ((src.drop b).take (a + 1 - b)).reverse

/-- Model of `output_doc.insert_pdf(src, from_page=fp, to_page=tp)` with the
library's range sanitization: a negative from_page becomes 0, a negative
to_page means the last page, and both are capped at the last page; on an
empty source nothing is copied. -/
def insert_pdf_range (src : List Page) (fp tp : Int) : List Page :=
  if src.length = 0 then []
  else
    let last : Int := (src.length : Int) - 1
    let fp2 := min (max fp 0) last
    let tp2 := if tp < 0 then last else min tp last
    pdfSpan src fp2.toNat tp2.toNat

/-- Model of Python `range(start, stop, step)` for natural bounds and a
positive step; for `step = 0` Python raises, callers guard that case. -/
def rangeStep (start stop step : Nat) : List Nat :=
  if h : 0 < step ∧ start < stop then
    start :: rangeStep (start + step) stop step
  else []
termination_by stop - start
decreasing_by omega

/-- Loop of the chunks branch of `split_pdf` (lines 126-136): one output
file per `start_page` in `range(0, total_pages, pages_per_split)`, with the
running one-based `chunk_num` counter in the file name. -/
def splitChunksGo (src : List Page) (folder base : String) (total C : Nat)
    (chunkNum start : Nat) : List (String × List Page) :=
  if h : 0 < C ∧ start < total then
    (joinPath folder (base ++ "_chunk_" ++ toString chunkNum ++ ".pdf"),
      pdfSpan src start (min (start + C - 1) (total - 1)))
      :: splitChunksGo src folder base total C (chunkNum + 1) (start + C)
  else []
termination_by total - start
decreasing_by omega

/-- Validity test of one range pair in the range branch of `split_pdf`
(line 144): the pair `(s, e)` passes when `s ≥ 0` and `e < total`. -/
def rangeOk (total : Nat) (r : Int × Int) : Bool :=
  decide (0 ≤ r.1) && decide (r.2 < (total : Int))

/-- Loop of the range branch of `split_pdf` (lines 143-151): each pair is
validated, then its pages are copied with the library's range sanitization
and its file is saved; saving raises when the copied span is empty (which
only happens on a zero-page source document, since a validated pair on a
non-empty document always selects at least one page).  The first pair that
raises, at its validation or at its save, leaves the files already written.
The result is the pair of the written files (in order) and the optional
error. -/
def splitRangeGo (src : List Page) (folder base : String) (total : Nat) :
    Nat → List (Int × Int) → List (String × List Page) × Option String
  | _, [] => ([], none)
  | idx, (s, e) :: rest =>
    if rangeOk total (s, e) then
      let pages := insert_pdf_range src s e
      if pages.isEmpty then ([], some "cannot save with zero pages")
      else
        let r := splitRangeGo src folder base total (idx + 1) rest
        ((joinPath folder (base ++ "_range_" ++ toString idx ++ ".pdf"),
          pages) :: r.1, r.2)
    else
      ([], some ("Invalid range (" ++ toString s ++ ", " ++ toString e ++
        "). PDF has " ++ toString total ++ " pages"))

/-- Model of `split_pdf` (lines 82-156).  The first component is the list of
`(path, document)` pairs actually written to disk, in write order; the
second is `some message` when the call raises after writing them and `none`
when it returns normally (in which case the first component is also the
returned list of output paths). -/
def split_pdf (src : List Page) (base folder : String) (mode : String)
    (pages_per_split : Nat) (page_ranges : Option (List (Int × Int))) :
    List (String × List Page) × Option String :=
  let total := src.length
  if mode = "pages" then
    ((List.range total).map (fun n =>
      (joinPath folder (base ++ "_page_" ++ toString (n + 1) ++ ".pdf"),
        pdfSpan src n n)), none)
  else if mode = "chunks" then
    if pages_per_split = 0 then
      ([], some "range() arg 3 must not be zero")
    else
      (splitChunksGo src folder base total pages_per_split 1 0, none)
  else if mode = "range" then
    match page_ranges with
    | none => ([], some "page_ranges must be provided when mode=range")
    | some [] => ([], some "page_ranges must be provided when mode=range")
    | some rs => splitRangeGo src folder base total 1 rs
  else
    ([], some ("Invalid mode " ++ mode ++ ". Must be pages, chunks, or range"))

/-- Model of `Document.delete_page(n)`: removes the page at index `n` and
raises when `n` is out of range, as the library documents. -/
def delete_page (doc : List Page) (n : Int) : Except String (List Page) :=
  if 0 ≤ n ∧ n < (doc.length : Int) then .ok (doc.eraseIdx n.toNat)
  else .error "bad page number(s)"

/-- Model of `delete_pages` (lines 159-184): convert the one-based list to
zero-based indices, sort in reverse, validate every index against the
original length, delete from the end towards the start, save.  Sorting is
`sorted(..., reverse=True)`, a stable descending sort, modelled by
`insertionSort` with the reversed order (on integer keys any stable
descending sort produces the same list).  Saving a document whose pages
were all deleted raises in the library (cannot save with zero pages). -/
def delete_pages (doc : List Page) (pages_to_delete : List Int) :
    Except String (List Page) :=
  let sorted := (pages_to_delete.map (fun p => p - 1)).insertionSort (fun a b => a ≥ b)
  match sorted.find? (fun p => decide (p < 0) || decide ((doc.length : Int) ≤ p)) with
  | some p => .error ("Invalid page number: " ++ toString (p + 1) ++
      ". PDF has " ++ toString doc.length ++ " pages")
  | none =>
    match sorted.foldlM (fun d p => delete_page d p) doc with
    | .error e => .error e
    | .ok d => if d.isEmpty then .error "cannot save with zero pages" else .ok d

/-- Argument shape of the `pages` parameter of `rotate_pages` and
`add_page_numbers`: either a selector string or a list of one-based page
numbers. -/
inductive PagesArg
  | str (s : String)
  | list (ps : List Int)
deriving DecidableEq

/-- Errors raised by `rotate_pages`, kept distinguishable: the rotation
check fires before the input file is opened, the page check fires after,
an unsupported selector string makes the list comprehension on line 217
raise a TypeError, and saving a zero-page document raises in the library. -/
inductive RotateErr
  | badRotation
  | badPage (n : Int)
  | badPagesArg
  | saveEmpty
deriving DecidableEq

/-- Rotation values accepted on line 202. -/
def validRotations : List Int := [90, 180, 270, -90, -180, -270]

/-- Model of `Page.set_rotation(r)`: stores `r % 360` in the page, leaving
every other component of the page untouched. -/
def set_rotation (p : Page) (r : Int) : Page := { p with rotation := r % 360 }

/-- Replaces the element at index `i`, leaving the list unchanged when `i`
is out of range. -/
def modifyAt : List Page → Nat → (Page → Page) → List Page
  | [], _, _ => []
  | p :: rest, 0, f => f p :: rest
  | p :: rest, n + 1, f => p :: modifyAt rest n f

/-- Model of `rotate_pages` (lines 187-229): the rotation value is checked
first (before the input file is opened), then the page selection is
computed and validated, then each selected page gets `set_rotation`, then
the document is saved. -/
def rotate_pages (doc : List Page) (rotation : Int) (pages : PagesArg) :
    Except RotateErr (List Page) :=
  if rotation ∈ validRotations then
    let total := doc.length
    let sel : Except RotateErr (List Int) :=
      match pages with
      | .str s =>
        if s = "all" then .ok ((List.range total).map Int.ofNat)
        else if s = "even" then
          .ok (((List.range total).filter (fun i => decide ((i + 1) % 2 = 0))).map Int.ofNat)
        else if s = "odd" then
          .ok (((List.range total).filter (fun i => decide ((i + 1) % 2 = 1))).map Int.ofNat)
        else .error .badPagesArg
      | .list ps =>
        let zs := ps.map (fun p => p - 1)
        match zs.find? (fun p => decide (p < 0) || decide ((total : Int) ≤ p)) with
        | some p => .error (.badPage (p + 1))
        | none => .ok zs
    match sel with
    | .error e => .error e
    | .ok zs =>
      let d := zs.foldl
        (fun d p => modifyAt d p.toNat (fun pg => set_rotation pg rotation)) doc
      if d.isEmpty then .error .saveEmpty else .ok d
  else .error .badRotation

/-- Save options passed by `compress_pdf` to `doc.save`. -/
structure SaveSettings where
  garbage : Nat
  deflate : Bool
  deflate_images : Bool
  deflate_fonts : Bool
  clean : Bool
deriving DecidableEq

/-- Model of the `compression_settings` table of `compress_pdf`
(lines 246-266); the keys absent from a tier keep their default value
(`clean` defaults to false). -/
def compression_settings (level : String) : Option SaveSettings :=
  if level = "low" then some ⟨1, true, false, false, false⟩
  else if level = "medium" then some ⟨3, true, true, true, false⟩
  else if level = "high" then some ⟨4, true, true, true, true⟩
  else none

/-- Saved output file of `compress_pdf`: the byte-level flags chosen plus
the page list, which `doc.save` serialises unchanged. -/
structure SavedFile where
  pages : List Page
  settings : SaveSettings
deriving DecidableEq

/-- Model of `compress_pdf` (lines 232-274): look the level up in the
settings table, raise when absent, otherwise save the unmodified document
with those flags; the save raises on a zero-page input document, writing
nothing. -/
def compress_pdf (doc : List Page) (compression_level : String) :
    Except String SavedFile :=
  match compression_settings compression_level with
  | none => .error "compression_level must be low, medium, or high"
  | some s =>
    if doc.isEmpty then .error "cannot save with zero pages"
    else .ok { pages := doc, settings := s }

/-- Piece of a page-number format string: literal text, the page
placeholder, or the total placeholder. -/
inductive FmtItem
  | lit (s : String)
  | pageNum
  | totalNum
deriving DecidableEq

/-- Model of `format_string.format(page=p, total=t)`: each placeholder is
replaced by the decimal rendering of its argument. -/
def renderFmt (fmt : List FmtItem) (p : Int) (t : Nat) : String :=
  fmt.foldl (fun acc it =>
    acc ++ match it with
    | .lit s => s
    | .pageNum => toString p
    | .totalNum => toString t) ""

/-- Model of the position switch of `add_page_numbers` (lines 497-511) with
`margin = 30`: the anchor point for a page rectangle, or `none` for an
unknown position string (which raises inside the loop). -/
def pageNumberPoint (position : String) (r : Rect) : Option (ℚ × ℚ) :=
  if position = "bottom-right" then some (r.width - 30, r.height - 30)
  else if position = "bottom-center" then some (r.width / 2, r.height - 30)
  else if position = "bottom-left" then some (30, r.height - 30)
  else if position = "top-right" then some (r.width - 30, 30)
  else if position = "top-center" then some (r.width / 2, 30)
  else if position = "top-left" then some (30, 30)
  else none

/-- Appends one inserted-text stamp to a page. -/
def stampPage (p : Page) (pt : ℚ × ℚ) (text : String) (fontSize : ℚ)
    (color : ℚ × ℚ × ℚ) : Page :=
  { p with stamps := p.stamps ++ [⟨pt, text, fontSize, color⟩] }

/-- Rectangle of the page at index `i`, with a dummy rectangle out of range
(the callers only index validated pages). -/
def rectAt (doc : List Page) (i : Nat) : Rect :=
  match doc[i]? with
  | some p => p.rect
  | none => ⟨0, 0, 0, 0⟩

/-- Loop of `add_page_numbers` (lines 487-514) over the already validated
zero-based selection: at iteration `idx` the text
`format(page=start_number+idx, total=totalSel)` is stamped on page
`sel[idx]`; an unknown position string raises at its first iteration.  The
result carries the final document together with the trace of
`(page index, text)` insertions, in order. -/
def addNumbersGo (position : String) (fontSize : ℚ) (color : ℚ × ℚ × ℚ)
    (fmt : List FmtItem) (startNumber : Int) (totalSel : Nat) :
    List Page → Int → List Int → Except String (List Page × List (Nat × String))
  | doc, _, [] => .ok (doc, [])
  | doc, idx, p :: rest =>
    let text := renderFmt fmt (startNumber + idx) totalSel
    match pageNumberPoint position (rectAt doc p.toNat) with
    | none => .error ("Invalid position: " ++ position)
    | some pt =>
      match addNumbersGo position fontSize color fmt startNumber totalSel
          (modifyAt doc p.toNat (fun pg => stampPage pg pt text fontSize color))
          (idx + 1) rest with
      | .error e => .error e
      | .ok (d, tr) => .ok (d, (p.toNat, text) :: tr)

/-- Model of `add_page_numbers` (lines 446-516): resolve the page
selection, validate it against the document length, run the stamping loop,
save once at the end (so nothing is written when the call raises); the
final save raises on a zero-page document.  The result carries the saved
document and the insertion trace. -/
def add_page_numbers (doc : List Page) (position : String) (fontSize : ℚ)
    (color : ℚ × ℚ × ℚ) (fmt : List FmtItem) (startNumber : Int)
    (pages : PagesArg) : Except String (List Page × List (Nat × String)) :=
  let total := doc.length
  match pages with
  | .str s =>
    if s = "all" then
      match addNumbersGo position fontSize color fmt startNumber total doc 0
          ((List.range total).map Int.ofNat) with
      | .error e => .error e
      | .ok (d, tr) =>
        if d.isEmpty then .error "cannot save with zero pages" else .ok (d, tr)
    else .error "TypeError"
  | .list ps =>
    let zs := ps.map (fun p => p - 1)
    match zs.find? (fun p => decide (p < 0) || decide ((total : Int) ≤ p)) with
    | some p => .error ("Invalid page number: " ++ toString (p + 1) ++
        ". PDF has " ++ toString total ++ " pages")
    | none =>
      match addNumbersGo position fontSize color fmt startNumber zs.length doc 0 zs with
      | .error e => .error e
      | .ok (d, tr) =>
        if d.isEmpty then .error "cannot save with zero pages" else .ok (d, tr)

/-- Scale factor of `create_nup` (lines 32-38): computed once, from the
rectangle of the first source page only. -/
def nupScale (p0 : Page) (n_cols n_rows : Nat) (orientation : String) : ℚ :=
  let margin : ℚ := 20
  let page_spacing : ℚ := 10
  let page_width_total : ℚ := if orientation.toLower = "landscape" then 842 else 595
  let page_height_total : ℚ := if orientation.toLower = "landscape" then 595 else 842
  let available_width := page_width_total - 2 * margin - ((n_cols : ℚ) - 1) * page_spacing
  let available_height := page_height_total - 2 * margin - ((n_rows : ℚ) - 1) * page_spacing
  let page_width := available_width / (n_cols : ℚ)
  let page_height := available_height / (n_rows : ℚ)
  min (page_width / p0.rect.width) (page_height / p0.rect.height)

/-- Placement of one source page onto an n-up sheet by `show_pdf_page`. -/
structure Placement where
  src_idx : Nat
  target : Rect
deriving DecidableEq

/-- Output sheet produced by `doc.new_page` in `create_nup`. -/
structure Sheet where
  width : ℚ
  height : ℚ
  placements : List Placement
deriving DecidableEq

/-- Model of `create_nup` (lines 4-59).  Accessing `src[0]` on an empty
document raises an IndexError before anything is written; a zero column or
row count makes the cell-size division raise before the loop.  Otherwise
one sheet is created per `range(0, len(src), n_cols*n_rows)` step, and each
cell whose source index is in range receives the source page scaled by the
single factor computed from the rectangle of page 0. -/
def create_nup (src : List Page) (n_cols n_rows : Nat) (orientation : String) :
    Except String (List Sheet) :=
  match src with
  | [] => .error "IndexError: page not in document"
  | p0 :: _ =>
    if n_cols = 0 ∨ n_rows = 0 then .error "ZeroDivisionError" else
    let pages_per_sheet := n_cols * n_rows
    let margin : ℚ := 20
    let page_spacing : ℚ := 10
    let page_width_total : ℚ := if orientation.toLower = "landscape" then 842 else 595
    let page_height_total : ℚ := if orientation.toLower = "landscape" then 595 else 842
    let src_rect := p0.rect
    let scale := nupScale p0 n_cols n_rows orientation
    let scaled_width := src_rect.width * scale
    let scaled_height := src_rect.height * scale
    .ok ((rangeStep 0 src.length pages_per_sheet).map (fun i =>
      { width := page_width_total
        height := page_height_total
        placements := (List.range n_rows).flatMap (fun row =>
          ((List.range n_cols).takeWhile
              (fun col => decide (i + row * n_cols + col < src.length))).map
            (fun col =>
              let idx : Nat := i + row * n_cols + col
              let x := margin + (col : ℚ) * (scaled_width + page_spacing)
              let y := margin + (row : ℚ) * (scaled_height + page_spacing)
              { src_idx := idx
                target := ⟨x, y, x + scaled_width, y + scaled_height⟩ })) }))

/-- Sample page used by the concrete witness theorems. -/
def samplePage (n : Nat) : Page :=
  { rect := ⟨0, 0, 612, 792⟩, rotation := 0, content := n, stamps := [] }

lemma foldl_insert_pdf_eq (l : List (List Page)) :
    ∀ acc : List Page, l.foldl (fun doc src => insert_pdf doc src) acc = acc ++ l.flatten := by
  induction l with
  | nil => intro acc; simp
  | cons x xs ih =>
    intro acc
    rw [List.foldl_cons, ih]
    simp [insert_pdf, List.append_assoc]

lemma isEmpty_false_of_length_pos {α : Type*} {l : List α} (h : 0 < l.length) :
    l.isEmpty = false := by
  cases l with
  | nil => simp at h
  | cons a t => rfl

/-- Claim C4 (amended): merging documents with at least one page in total
yields their concatenation, so the output page count is the sum of the
inputs' page counts and the pages appear grouped by input document in list
order; when the inputs hold no pages at all (an empty input list, or every
input empty) the save of the zero-page merged document raises and nothing
is written. -/
theorem merge_pdfs_spec (input_pdfs : List (List Page)) :
    (input_pdfs.flatten ≠ [] →
      merge_pdfs input_pdfs = .ok input_pdfs.flatten ∧
      input_pdfs.flatten.length = (input_pdfs.map List.length).sum) ∧
    (input_pdfs.flatten = [] →
      merge_pdfs input_pdfs = .error "cannot save with zero pages") := by
  have hfold : input_pdfs.foldl (fun doc src => insert_pdf doc src) [] =
      input_pdfs.flatten := by
    simpa using foldl_insert_pdf_eq input_pdfs []
  constructor
  · intro hne
    refine ⟨?_, List.length_flatten _⟩
    simp only [merge_pdfs, hfold,
      isEmpty_false_of_length_pos (List.length_pos.mpr hne),
      Bool.false_eq_true, if_false]
  · intro he
    simp [merge_pdfs, hfold, he]

/-- Claim C4 as stated is false on the code: merging an empty list of
inputs builds a zero-page document whose save raises, producing no output
document at all. -/
theorem merge_pdfs_empty_counterexample :
    merge_pdfs [] = .error "cannot save with zero pages" := rfl

/-- Witness for the amended claim C4 at two concrete one-page inputs. -/
theorem merge_pdfs_spec_witness :
    merge_pdfs [[samplePage 0], [samplePage 1]] =
      .ok ([[samplePage 0], [samplePage 1]] : List (List Page)).flatten ∧
    ([[samplePage 0], [samplePage 1]] : List (List Page)).flatten.length =
      (([[samplePage 0], [samplePage 1]] : List (List Page)).map List.length).sum :=
  (merge_pdfs_spec [[samplePage 0], [samplePage 1]]).1 (by decide)

lemma pdfSpan_self (src : List Page) (n : Nat) :
    pdfSpan src n n = (src.drop n).take 1 := by
  simp [pdfSpan]

lemma range_map_take_one (src : List Page) :
    (List.range src.length).map (fun n => (src.drop n).take 1) =
      src.map (fun p => [p]) := by
  induction src with
  | nil => simp
  | cons p rest ih =>
    rw [List.length_cons, List.range_succ_eq_map, List.map_cons, List.map_map]
    refine congrArg₂ List.cons rfl ?_
    calc (List.range rest.length).map
          ((fun n => ((p :: rest).drop n).take 1) ∘ Nat.succ)
        = (List.range rest.length).map (fun n => (rest.drop n).take 1) := by
          exact List.map_congr_left (fun a _ => rfl)
      _ = rest.map (fun q => [q]) := ih

/-- Claim C8: splitting a K-page document in pages mode raises nothing and
writes exactly K files, the i-th one holding exactly the single original
page i, with the output paths returned in page order. -/
theorem split_pdf_pages_spec (src : List Page) (base folder : String)
    (pps : Nat) (ranges : Option (List (Int × Int))) :
    (split_pdf src base folder "pages" pps ranges).2 = none ∧
    (split_pdf src base folder "pages" pps ranges).1.length = src.length ∧
    (split_pdf src base folder "pages" pps ranges).1.map Prod.snd =
      src.map (fun p => [p]) ∧
    (split_pdf src base folder "pages" pps ranges).1.map Prod.fst =
      (List.range src.length).map
        (fun n => joinPath folder (base ++ "_page_" ++ toString (n + 1) ++ ".pdf")) := by
  refine ⟨rfl, by simp [split_pdf], ?_, ?_⟩
  · show ((List.range src.length).map _).map Prod.snd = _
    rw [List.map_map]
    calc (List.range src.length).map
          (Prod.snd ∘ fun n =>
            (joinPath folder (base ++ "_page_" ++ toString (n + 1) ++ ".pdf"),
              pdfSpan src n n))
        = (List.range src.length).map (fun n => (src.drop n).take 1) :=
          List.map_congr_left (fun a _ => pdfSpan_self src a)
      _ = src.map (fun p => [p]) := range_map_take_one src
  · show ((List.range src.length).map _).map Prod.fst = _
    rw [List.map_map]
    rfl

/-- Claim C7: rotate_pages raises its rotation error, before the input file
is opened, exactly when the rotation is not one of the six accepted values;
in particular a rotation of 0 is rejected. -/
theorem rotate_pages_rotation_check (doc : List Page) (rotation : Int)
    (pages : PagesArg) :
    (rotate_pages doc rotation pages = .error RotateErr.badRotation ↔
      rotation ∉ validRotations) ∧
    rotate_pages doc 0 pages = .error RotateErr.badRotation := by
  have key : ∀ r : Int,
      rotate_pages doc r pages = .error RotateErr.badRotation ↔ r ∉ validRotations := by
    intro r
    constructor
    · intro h hmem
      rw [rotate_pages, if_pos hmem] at h
      cases pages with
      | str s =>
        by_cases h1 : s = "all"
        · simp [h1] at h
          split at h <;> simp at h
        · by_cases h2 : s = "even"
          · simp [h1, h2] at h
            split at h <;> simp at h
          · by_cases h3 : s = "odd"
            · simp [h1, h2, h3] at h
              split at h <;> simp at h
            · simp [h1, h2, h3] at h
      | list ps =>
        cases hf : (ps.map (fun p => p - 1)).find?
            (fun p => decide (p < 0) || decide ((doc.length : Int) ≤ p)) with
        | none =>
          simp [hf] at h
          split at h <;> simp at h
        | some p => simp [hf] at h
    · intro h
      rw [rotate_pages, if_neg h]
  exact ⟨key rotation, (key 0).2 (by decide)⟩

/-- Claim C5: rotating a four-page document with the even selector and a
valid rotation value updates only the rotation field of pages 2 and 4
(one-based); pages 1 and 3, and every non-rotation component of every page,
are returned unchanged. -/
theorem rotate_pages_even_four (p1 p2 p3 p4 : Page) (r : Int)
    (hr : r ∈ validRotations) :
    rotate_pages [p1, p2, p3, p4] r (.str "even") =
      .ok [p1, set_rotation p2 r, p3, set_rotation p4 r] := by
  rw [rotate_pages, if_pos hr]
  simp [List.range_succ, modifyAt, set_rotation]

/-- Witness for claim C5 at a concrete document and rotation. -/
theorem rotate_pages_even_four_witness :
    rotate_pages [samplePage 1, samplePage 2, samplePage 3, samplePage 4] 90 (.str "even") =
      .ok [samplePage 1, set_rotation (samplePage 2) 90, samplePage 3,
        set_rotation (samplePage 4) 90] :=
  rotate_pages_even_four (samplePage 1) (samplePage 2) (samplePage 3) (samplePage 4)
    90 (by decide)

/-- Claim C6 (amended): compressing a document with at least one page at
any of the three accepted levels succeeds and the saved file has the same
page count and the same page dimensions as the input; on a zero-page input
document the save raises and nothing is written. -/
theorem compress_pdf_preserves_pages (doc : List Page) (level : String)
    (h : level = "low" ∨ level = "medium" ∨ level = "high") :
    (doc ≠ [] →
      ∃ f : SavedFile, compress_pdf doc level = .ok f ∧
        f.pages.length = doc.length ∧
        f.pages.map (fun p => (p.rect.width, p.rect.height)) =
          doc.map (fun p => (p.rect.width, p.rect.height))) ∧
    (doc = [] →
      compress_pdf doc level = .error "cannot save with zero pages") := by
  constructor
  · intro hne
    cases doc with
    | nil => exact absurd rfl hne
    | cons a t =>
      rcases h with h | h | h <;> subst h <;> exact ⟨_, rfl, rfl, rfl⟩
  · intro he
    subst he
    rcases h with h | h | h <;> subst h <;> rfl

/-- Claim C6 as stated is false on the code: on a zero-page input document
(which the library opens) the save raises, so no output document with the
same page count is produced. -/
theorem compress_pdf_empty_counterexample :
    compress_pdf ([] : List Page) "medium" =
      .error "cannot save with zero pages" := rfl

/-- Witness for the amended claim C6 at a concrete document and level. -/
theorem compress_pdf_preserves_pages_witness :
    ∃ f : SavedFile, compress_pdf [samplePage 0] "medium" = .ok f ∧
      f.pages.length = ([samplePage 0] : List Page).length ∧
      f.pages.map (fun p => (p.rect.width, p.rect.height)) =
        ([samplePage 0] : List Page).map (fun p => (p.rect.width, p.rect.height)) :=
  (compress_pdf_preserves_pages [samplePage 0] "medium"
    (Or.inr (Or.inl rfl))).1 (by decide)

lemma lt_ceilDiv_mul_lt {C t j : Nat} (hC : 0 < C) (hj : j < (t + C - 1) / C) :
    C * j + 1 ≤ t := by
  have h1 : j + 1 ≤ (t + C - 1) / C := hj
  have h2 : (j + 1) * C ≤ t + C - 1 := (Nat.le_div_iff_mul_le hC).mp h1
  have h3 : (j + 1) * C = C * j + C := by ring
  omega

lemma ceil_mul_ge {C t : Nat} (hC : 0 < C) : t ≤ C * ((t + C - 1) / C) := by
  have h1 := Nat.div_add_mod (t + C - 1) C
  have h2 : (t + C - 1) % C < C := Nat.mod_lt _ hC
  omega

lemma splitChunksGo_eq (src : List Page) (folder base : String) (total C : Nat)
    (hC : 0 < C) :
    ∀ (k start n : Nat), total - start ≤ k →
    splitChunksGo src folder base total C n start =
      (List.range ((total - start + C - 1) / C)).map (fun i =>
        (joinPath folder (base ++ "_chunk_" ++ toString (n + i) ++ ".pdf"),
          pdfSpan src (start + C * i) (min (start + C * i + C - 1) (total - 1)))) := by
  intro k
  induction k with
  | zero =>
    intro start n hk
    rw [splitChunksGo, dif_neg (by omega : ¬ (0 < C ∧ start < total))]
    rw [show (total - start + C - 1) / C = 0 from Nat.div_eq_of_lt (by omega)]
    rfl
  | succ k ih =>
    intro start n hk
    by_cases hst : start < total
    · rw [splitChunksGo, dif_pos ⟨hC, hst⟩, ih (start + C) (n + 1) (by omega)]
      have hNM : (total - start + C - 1) / C = (total - (start + C) + C - 1) / C + 1 := by
        have e1 : total - start + C - 1 = (total - start - 1) + C := by omega
        rw [e1, Nat.add_div_right _ hC]
        have e2 : total - (start + C) = total - start - C := by omega
        rw [e2]
        by_cases hdc : C < total - start
        · rw [show total - start - C + C - 1 = total - start - 1 from by omega]
        · rw [show total - start - C = 0 from by omega]
          rw [Nat.div_eq_of_lt (by omega), Nat.div_eq_of_lt (by omega)]
      rw [hNM, List.range_succ_eq_map, List.map_cons, List.map_map]
      refine congrArg₂ List.cons ?_ ?_
      · simp
      · refine List.map_congr_left (fun i _ => ?_)
        show (joinPath folder (base ++ "_chunk_" ++ toString (n + 1 + i) ++ ".pdf"),
            pdfSpan src (start + C + C * i)
              (min (start + C + C * i + C - 1) (total - 1))) =
          (joinPath folder (base ++ "_chunk_" ++ toString (n + (i + 1)) ++ ".pdf"),
            pdfSpan src (start + C * (i + 1))
              (min (start + C * (i + 1) + C - 1) (total - 1)))
        rw [show n + 1 + i = n + (i + 1) from by omega,
          show start + C + C * i = start + C * (i + 1) from by ring]
    · rw [splitChunksGo, dif_neg (by omega : ¬ (0 < C ∧ start < total))]
      rw [show (total - start + C - 1) / C = 0 from Nat.div_eq_of_lt (by omega)]
      rfl

/-- Claim C2: splitting a K-page document in chunks mode with chunk size
C >= 1 raises nothing and writes exactly ceil(K / C) files; every file
except possibly the last holds exactly C pages, and the last holds the
remaining K - C * (ceil(K / C) - 1) pages. -/
theorem split_pdf_chunks_spec (src : List Page) (base folder : String)
    (C : Nat) (hC : 0 < C) :
    ∃ out, split_pdf src base folder "chunks" C none = (out, none) ∧
      out.length = (src.length + C - 1) / C ∧
      (∀ i (h : i < out.length), i + 1 < out.length →
        (out.get ⟨i, h⟩).2.length = C) ∧
      (∀ h : out ≠ [], ((out.getLast h).2).length =
        src.length - C * (out.length - 1)) := by
  have hbr : split_pdf src base folder "chunks" C none =
      (splitChunksGo src folder base src.length C 1 0, none) := by
    simp [split_pdf, Nat.pos_iff_ne_zero.mp hC]
  rw [splitChunksGo_eq src folder base src.length C hC src.length 0 1 (by omega)] at hbr
  simp only [Nat.sub_zero, Nat.zero_add] at hbr
  refine ⟨_, hbr, ?_, ?_, ?_⟩
  · simp
  · intro i h hnext
    have hlen : ((List.range ((src.length + C - 1) / C)).map (fun i =>
        (joinPath folder (base ++ "_chunk_" ++ toString (1 + i) ++ ".pdf"),
          pdfSpan src (C * i) (min (C * i + C - 1) (src.length - 1))))).length =
        (src.length + C - 1) / C := by simp
    rw [hlen] at hnext
    have hub : C * (i + 1) + 1 ≤ src.length := lt_ceilDiv_mul_lt hC hnext
    have hmul : C * (i + 1) = C * i + C := by ring
    rw [List.get_eq_getElem]
    simp only [Fin.val_mk, List.getElem_map, List.getElem_range]
    have hmin : min (C * i + C - 1) (src.length - 1) = C * i + C - 1 :=
      min_eq_left (by omega)
    rw [hmin, pdfSpan, if_pos (by omega : C * i ≤ C * i + C - 1)]
    rw [List.length_take, List.length_drop]
    have : C * i + C - 1 + 1 - C * i = C := by omega
    rw [this]
    omega
  · intro h
    have hlen : ((List.range ((src.length + C - 1) / C)).map (fun i =>
        (joinPath folder (base ++ "_chunk_" ++ toString (1 + i) ++ ".pdf"),
          pdfSpan src (C * i) (min (C * i + C - 1) (src.length - 1))))).length =
        (src.length + C - 1) / C := by simp
    have hN : 0 < (src.length + C - 1) / C := by
      rw [← hlen]
      exact List.length_pos.mpr h
    have hsrc1 : 1 ≤ src.length := by
      have := (Nat.le_div_iff_mul_le hC).mp hN
      omega
    have hceil : src.length ≤ C * ((src.length + C - 1) / C) := ceil_mul_ge hC
    have hlow : C * ((src.length + C - 1) / C - 1) + 1 ≤ src.length :=
      lt_ceilDiv_mul_lt hC (by omega)
    have hmulN : C * ((src.length + C - 1) / C - 1) + C =
        C * ((src.length + C - 1) / C) := by
      rw [← Nat.mul_succ]
      congr 1
      omega
    rw [List.getLast_eq_getElem]
    simp only [List.length_map, List.length_range, List.getElem_map,
      List.getElem_range]
    have hmin : min (C * ((src.length + C - 1) / C - 1) + C - 1) (src.length - 1) =
        src.length - 1 := min_eq_right (by omega)
    rw [hmin, pdfSpan, if_pos (by omega : C * ((src.length + C - 1) / C - 1) ≤ src.length - 1)]
    rw [List.length_take, List.length_drop]
    omega

/-- Five-page sample document for concrete witnesses. -/
def sampleDoc5 : List Page :=
  [samplePage 0, samplePage 1, samplePage 2, samplePage 3, samplePage 4]

/-- Witness for claim C2 at a concrete five-page document and chunk size 2. -/
theorem split_pdf_chunks_spec_witness :
    ∃ out, split_pdf sampleDoc5 "doc" "out" "chunks" 2 none = (out, none) ∧
      out.length = (sampleDoc5.length + 2 - 1) / 2 ∧
      (∀ i (h : i < out.length), i + 1 < out.length →
        (out.get ⟨i, h⟩).2.length = 2) ∧
      (∀ h : out ≠ [], ((out.getLast h).2).length =
        sampleDoc5.length - 2 * (out.length - 1)) :=
  split_pdf_chunks_spec sampleDoc5 "doc" "out" 2 (by decide)

lemma pdfSpan_isEmpty_false (src : List Page) (a b : Nat)
    (ha : a < src.length) (hb : b < src.length) :
    (pdfSpan src a b).isEmpty = false := by
  apply isEmpty_false_of_length_pos
  rw [pdfSpan]
  by_cases hab : a ≤ b
  · rw [if_pos hab, List.length_take, List.length_drop]
    omega
  · rw [if_neg hab, List.length_reverse, List.length_take, List.length_drop]
    omega

lemma insert_pdf_range_isEmpty_false (src : List Page) (fp tp : Int)
    (hsrc : 0 < src.length) :
    (insert_pdf_range src fp tp).isEmpty = false := by
  have hne : ¬ src.length = 0 := by omega
  simp only [insert_pdf_range, hne, if_false]
  apply pdfSpan_isEmpty_false
  · omega
  · split <;> omega

lemma splitRangeGo_nil_src (folder base : String) (total : Nat) (idx : Nat)
    (s e : Int) (rest : List (Int × Int)) :
    (splitRangeGo [] folder base total idx ((s, e) :: rest)).1 = [] ∧
    (splitRangeGo [] folder base total idx ((s, e) :: rest)).2.isSome = true := by
  by_cases hok : rangeOk total (s, e)
  · simp [splitRangeGo, hok, insert_pdf_range]
  · simp [splitRangeGo, hok]

lemma splitRangeGo_spec (src : List Page) (folder base : String) (total : Nat)
    (hsrc : 0 < src.length) :
    ∀ (rs : List (Int × Int)) (idx : Nat),
    ((splitRangeGo src folder base total idx rs).2.isSome ↔
      ∃ r ∈ rs, rangeOk total r = false) ∧
    (splitRangeGo src folder base total idx rs).1.length =
      (rs.takeWhile (rangeOk total)).length ∧
    (splitRangeGo src folder base total idx rs).1.map Prod.snd =
      (rs.takeWhile (rangeOk total)).map
        (fun r => insert_pdf_range src r.1 r.2) := by
  intro rs
  induction rs with
  | nil => intro idx; simp [splitRangeGo]
  | cons r rest ih =>
    intro idx
    obtain ⟨s, e⟩ := r
    have hemp : (insert_pdf_range src s e).isEmpty = false :=
      insert_pdf_range_isEmpty_false src s e hsrc
    by_cases hok : rangeOk total (s, e)
    · simp only [splitRangeGo, hok, if_true, hemp, Bool.false_eq_true, if_false,
        List.takeWhile_cons]
      refine ⟨?_, ?_, ?_⟩
      · rw [(ih (idx + 1)).1]
        simp [hok]
      · simp [(ih (idx + 1)).2.1, hok]
      · simp [(ih (idx + 1)).2.2, hok]
    · simp only [splitRangeGo, hok, Bool.false_eq_true, if_false, List.takeWhile_cons]
      refine ⟨?_, ?_, ?_⟩
      · simp only [Option.isSome_some, true_iff]
        exact ⟨(s, e), List.mem_cons_self _ _, by simpa using hok⟩
      · simp
      · simp

/-- Claim C1 (amended): when split_pdf raises on an invalid parameter, the
files on disk at the moment of the raise are exactly those written before
the failing step.  For an unknown mode or a missing or empty page_ranges
this means no files at all; but in range mode each pair is validated just
before its own file is written, so on a non-empty document the call raises
at the first out-of-range pair with the files of all preceding valid pairs
already on disk (none only when the first invalid pair comes first).  On a
zero-page document every pair fails, at its validation or at the save of
its empty copied span, so the call always raises with no file written. -/
theorem split_pdf_failure_write_policy (src : List Page)
    (base folder mode : String) (pps : Nat) (rs : List (Int × Int)) :
    ((0 < src.length →
      (((split_pdf src base folder "range" pps (some rs)).2.isSome ↔
          (rs = [] ∨ ∃ r ∈ rs, rangeOk src.length r = false)) ∧
        (split_pdf src base folder "range" pps (some rs)).1.length =
          (rs.takeWhile (rangeOk src.length)).length ∧
        (split_pdf src base folder "range" pps (some rs)).1.map Prod.snd =
          (rs.takeWhile (rangeOk src.length)).map
            (fun r => insert_pdf_range src r.1 r.2))) ∧
      (src.length = 0 →
        (split_pdf src base folder "range" pps (some rs)).1 = [] ∧
        (split_pdf src base folder "range" pps (some rs)).2.isSome = true)) ∧
    split_pdf src base folder "range" pps none =
      ([], some "page_ranges must be provided when mode=range") ∧
    (mode ≠ "pages" → mode ≠ "chunks" → mode ≠ "range" →
      split_pdf src base folder mode pps (some rs) =
        ([], some ("Invalid mode " ++ mode ++ ". Must be pages, chunks, or range"))) := by
  refine ⟨⟨?_, ?_⟩, by simp [split_pdf], ?_⟩
  · intro hsrc
    cases rs with
    | nil => simp [split_pdf]
    | cons r rest =>
      have hbr : split_pdf src base folder "range" pps (some (r :: rest)) =
          splitRangeGo src folder base src.length 1 (r :: rest) := by
        simp [split_pdf]
      rw [hbr]
      obtain ⟨h1, h2, h3⟩ :=
        splitRangeGo_spec src folder base src.length hsrc (r :: rest) 1
      refine ⟨?_, h2, h3⟩
      rw [h1]
      simp
  · intro hz
    have hnil : src = [] := List.length_eq_zero.mp hz
    subst hnil
    cases rs with
    | nil => simp [split_pdf]
    | cons r rest =>
      obtain ⟨s, e⟩ := r
      have hbr : split_pdf [] base folder "range" pps (some ((s, e) :: rest)) =
          splitRangeGo [] folder base 0 1 ((s, e) :: rest) := by
        simp [split_pdf]
      rw [hbr]
      exact splitRangeGo_nil_src folder base 0 1 s e rest
  · intro hm1 hm2 hm3
    simp [split_pdf, hm1, hm2, hm3]

/-- Claim C1 as stated is false on the code: splitting a one-page document
in range mode with ranges [(0,0),(1,1)] raises on the second pair, yet the
file for the first pair has already been written to disk. -/
theorem split_pdf_partial_write_counterexample :
    (split_pdf [samplePage 0] "doc" "out" "range" 1
      (some [(0, 0), (1, 1)])).2.isSome = true ∧
    (split_pdf [samplePage 0] "doc" "out" "range" 1
      (some [(0, 0), (1, 1)])).1.length = 1 := by
  exact ⟨rfl, rfl⟩

/-- Witness for the amended claim C1 at a concrete one-page document (the
range conjunct) and a concrete unknown mode (the invalid-mode conjunct). -/
theorem split_pdf_failure_write_policy_witness :
    (((split_pdf [samplePage 0] "doc" "out" "range" 1 (some [(0, 0)])).2.isSome ↔
        (([((0 : Int), (0 : Int))] : List (Int × Int)) = [] ∨
          ∃ r ∈ ([((0 : Int), (0 : Int))] : List (Int × Int)),
            rangeOk ([samplePage 0] : List Page).length r = false)) ∧
      (split_pdf [samplePage 0] "doc" "out" "range" 1 (some [(0, 0)])).1.length =
        (([((0 : Int), (0 : Int))] : List (Int × Int)).takeWhile
          (rangeOk ([samplePage 0] : List Page).length)).length ∧
      (split_pdf [samplePage 0] "doc" "out" "range" 1
          (some [(0, 0)])).1.map Prod.snd =
        (([((0 : Int), (0 : Int))] : List (Int × Int)).takeWhile
          (rangeOk ([samplePage 0] : List Page).length)).map
          (fun r => insert_pdf_range [samplePage 0] r.1 r.2)) ∧
    split_pdf [samplePage 0] "doc" "out" "bogus" 1 (some [(0, 0)]) =
      ([], some ("Invalid mode " ++ "bogus" ++ ". Must be pages, chunks, or range")) :=
  ⟨(split_pdf_failure_write_policy [samplePage 0] "doc" "out" "bogus" 1
      [(0, 0)]).1.1 (by decide),
    (split_pdf_failure_write_policy [samplePage 0] "doc" "out" "bogus" 1
      [(0, 0)]).2.2 (by decide) (by decide) (by decide)⟩

lemma foldlM_delete_ok : ∀ (l : List Int) (doc : List Page),
    l.Pairwise (fun a b => b < a) →
    (∀ x ∈ l, 0 ≤ x ∧ x < (doc.length : Int)) →
    ∃ d, l.foldlM (fun d p => delete_page d p) doc = Except.ok d ∧
      d.length = doc.length - l.length := by
  intro l
  induction l with
  | nil => intro doc _ _; exact ⟨doc, rfl, by simp⟩
  | cons a rest ih =>
    intro doc hpw hbd
    have ha := hbd a (List.mem_cons_self _ _)
    have hstep : delete_page doc a = .ok (doc.eraseIdx a.toNat) := by
      rw [delete_page, if_pos ⟨ha.1, ha.2⟩]
    have hto : a.toNat < doc.length := by omega
    have hlen : (doc.eraseIdx a.toNat).length = doc.length - 1 := by
      rw [List.length_eraseIdx, if_pos hto]
    have hhead : ∀ x ∈ rest, x < a := (List.pairwise_cons.mp hpw).1
    obtain ⟨d, hfold, hdlen⟩ := ih (doc.eraseIdx a.toNat)
      (List.pairwise_cons.mp hpw).2
      (by
        intro x hx
        have h1 := hbd x (List.mem_cons_of_mem _ hx)
        have h2 := hhead x hx
        constructor
        · exact h1.1
        · rw [hlen]
          omega)
    refine ⟨d, ?_, ?_⟩
    · rw [List.foldlM_cons, hstep]
      simpa using hfold
    · rw [hdlen, hlen]
      have : a.toNat < doc.length := hto
      simp only [List.length_cons]
      omega

lemma sortedDesc_strict (l : List Int) (hnd : l.Nodup) :
    (l.insertionSort (fun a b => a ≥ b)).Pairwise (fun a b => b < a) := by
  have hs : List.Sorted (fun a b : Int => a ≥ b)
      (l.insertionSort (fun a b => a ≥ b)) :=
    List.sorted_insertionSort _ _
  have hnd2 : (l.insertionSort (fun a b => a ≥ b)).Nodup :=
    ((List.perm_insertionSort _ l).symm).nodup hnd
  exact (List.Pairwise.and hs hnd2).imp
    (fun h => lt_of_le_of_ne h.1 (Ne.symm h.2))

/-- Claim C3 (amended): deleting pages [1,3] from a five-page document
yields the three-page document of original pages 2, 4, 5 in order; the call
raises whenever some listed number is outside 1..len(doc); and for any
duplicate-free list of in-range numbers that leaves at least one page, the
call succeeds with len(doc) minus the list length pages.  (Duplicate
entries can make an intermediate delete raise even when every listed number
is in range, so the original "raises only if some number is out of range"
is too strong.) -/
theorem delete_pages_spec :
    (∀ p1 p2 p3 p4 p5 : Page,
      delete_pages [p1, p2, p3, p4, p5] [1, 3] = .ok [p2, p4, p5]) ∧
    (∀ (doc : List Page) (ps : List Int),
      (∃ p ∈ ps, p < 1 ∨ (doc.length : Int) < p) →
      ∃ e, delete_pages doc ps = .error e) ∧
    (∀ (doc : List Page) (ps : List Int), ps.Nodup →
      (∀ p ∈ ps, 1 ≤ p ∧ p ≤ (doc.length : Int)) → ps.length < doc.length →
      ∃ out, delete_pages doc ps = .ok out ∧
        out.length = doc.length - ps.length) := by
  refine ⟨fun p1 p2 p3 p4 p5 => rfl, ?_, ?_⟩
  · intro doc ps ⟨p, hp, hbad⟩
    have hmem : p - 1 ∈ (ps.map (fun p => p - 1)).insertionSort (fun a b => a ≥ b) := by
      rw [(List.perm_insertionSort _ _).mem_iff]
      exact List.mem_map_of_mem _ hp
    have hpred : (fun q => decide (q < 0) || decide ((doc.length : Int) ≤ q)) (p - 1)
        = true := by
      simp only [Bool.or_eq_true, decide_eq_true_eq]
      omega
    have hsome : ((ps.map (fun p => p - 1)).insertionSort (fun a b => a ≥ b)).find?
        (fun q => decide (q < 0) || decide ((doc.length : Int) ≤ q)) ≠ none := by
      intro hnone
      exact absurd hpred (by simpa using List.find?_eq_none.mp hnone _ hmem)
    simp only [delete_pages]
    cases hf : ((ps.map (fun p => p - 1)).insertionSort (fun a b => a ≥ b)).find?
        (fun q => decide (q < 0) || decide ((doc.length : Int) ≤ q)) with
    | none => exact absurd hf hsome
    | some q => exact ⟨_, rfl⟩
  · intro doc ps hnd hin hlt
    have hinj : Function.Injective (fun p : Int => p - 1) := by
      intro a b h
      have h2 : a - 1 = b - 1 := h
      omega
    have hznd : (ps.map (fun p => p - 1)).Nodup := hnd.map hinj
    have hperm := List.perm_insertionSort (fun a b : Int => a ≥ b)
      (ps.map (fun p => p - 1))
    have hsnd : ((ps.map (fun p => p - 1)).insertionSort (fun a b => a ≥ b)).Nodup :=
      hperm.symm.nodup hznd
    have hbounds : ∀ x ∈ (ps.map (fun p => p - 1)).insertionSort (fun a b => a ≥ b),
        0 ≤ x ∧ x < (doc.length : Int) := by
      intro x hx
      obtain ⟨p, hp, rfl⟩ := List.mem_map.mp (hperm.mem_iff.mp hx)
      have := hin p hp
      omega
    have hnone : ((ps.map (fun p => p - 1)).insertionSort (fun a b => a ≥ b)).find?
        (fun q => decide (q < 0) || decide ((doc.length : Int) ≤ q)) = none := by
      rw [List.find?_eq_none]
      intro x hx
      have := hbounds x hx
      simp only [Bool.or_eq_true, decide_eq_true_eq]
      omega
    obtain ⟨d, hfold, hdlen⟩ := foldlM_delete_ok
      ((ps.map (fun p => p - 1)).insertionSort (fun a b => a ≥ b)) doc
      (sortedDesc_strict _ hznd) hbounds
    have hslen : ((ps.map (fun p => p - 1)).insertionSort
        (fun a b => a ≥ b)).length = ps.length := by
      rw [hperm.length_eq, List.length_map]
    rw [hslen] at hdlen
    have hne : d.isEmpty = false := by
      cases d with
      | nil =>
        exfalso
        rw [List.length_nil] at hdlen
        omega
      | cons x xs => rfl
    refine ⟨d, ?_, hdlen⟩
    simp only [delete_pages]
    rw [hnone, hfold]
    simp [hne]

/-- Claim C3 as stated is false on the code: the duplicate list [1,1] on a
one-page document passes the up-front validation (every listed number is in
1..1) but the second delete_page call hits an already-empty document and
raises. -/
theorem delete_pages_duplicate_counterexample :
    delete_pages [samplePage 0] [1, 1] = .error "bad page number(s)" ∧
    ∀ p ∈ [(1 : Int), 1], 1 ≤ p ∧ p ≤ (([samplePage 0] : List Page).length : Int) := by
  exact ⟨rfl, by decide⟩

/-- Witness for the amended claim C3 at a concrete five-page document. -/
theorem delete_pages_spec_witness :
    ∃ out, delete_pages sampleDoc5 [1, 3] = .ok out ∧
      out.length = sampleDoc5.length - ([(1 : Int), 3] : List Int).length :=
  delete_pages_spec.2.2 sampleDoc5 [1, 3] (by decide) (by decide) (by decide)

lemma modifyAt_length (l : List Page) : ∀ (i : Nat) (f : Page → Page),
    (modifyAt l i f).length = l.length := by
  induction l with
  | nil => intro i f; rfl
  | cons p rest ih =>
    intro i f
    cases i with
    | zero => rfl
    | succ n => simp [modifyAt, ih]

lemma modifyAt_getElem?_self (l : List Page) : ∀ (i : Nat) (f : Page → Page),
    (modifyAt l i f)[i]? = (l[i]?).map f := by
  induction l with
  | nil => intro i f; simp [modifyAt]
  | cons p rest ih =>
    intro i f
    cases i with
    | zero => simp [modifyAt]
    | succ n => simp [modifyAt, ih]

lemma modifyAt_getElem?_ne (l : List Page) : ∀ (i j : Nat) (f : Page → Page),
    j ≠ i → (modifyAt l i f)[j]? = l[j]? := by
  induction l with
  | nil => intro i j f _; simp [modifyAt]
  | cons p rest ih =>
    intro i j f hne
    cases i with
    | zero =>
      cases j with
      | zero => exact absurd rfl hne
      | succ m => simp [modifyAt]
    | succ n =>
      cases j with
      | zero => simp [modifyAt]
      | succ m =>
        simp only [modifyAt, List.getElem?_cons_succ]
        exact ih n m f (by omega)

lemma addNumbersGo_ok (position : String) (fontSize : ℚ) (color : ℚ × ℚ × ℚ)
    (fmt : List FmtItem) (startNumber : Int) (totalSel : Nat)
    (hpos : ∀ r : Rect, (pageNumberPoint position r).isSome) :
    ∀ (sel : List Int) (doc : List Page) (idx : Int),
    (∀ p ∈ sel, 0 ≤ p ∧ p < (doc.length : Int)) →
    ∃ d tr,
      addNumbersGo position fontSize color fmt startNumber totalSel doc idx sel
        = .ok (d, tr) ∧
      d.length = doc.length ∧
      tr.length = sel.length ∧
      (∀ j : Nat, tr[j]? = (sel[j]?).map
        (fun q => (q.toNat, renderFmt fmt (startNumber + idx + (j : Int)) totalSel))) ∧
      (∀ i : Nat, ∃ ex : List Stamp, d[i]? =
        (doc[i]?).map (fun pg => { pg with stamps := pg.stamps ++ ex })) ∧
      (∀ (j : Nat) (q : Int), sel[j]? = some q → ∃ pg, d[q.toNat]? = some pg ∧
        renderFmt fmt (startNumber + idx + (j : Int)) totalSel ∈
          pg.stamps.map Stamp.text) := by
  intro sel
  induction sel with
  | nil =>
    intro doc idx _
    refine ⟨doc, [], rfl, rfl, rfl, ?_, ?_, ?_⟩
    · intro j; simp
    · intro i; exact ⟨[], by simp⟩
    · intro j q h; simp at h
  | cons p rest ih =>
    intro doc idx hbd
    obtain ⟨hp0, hplen⟩ := hbd p (List.mem_cons_self _ _)
    obtain ⟨pt, hpt⟩ := Option.isSome_iff_exists.mp (hpos (rectAt doc p.toNat))
    set st : Stamp := ⟨pt, renderFmt fmt (startNumber + idx) totalSel, fontSize, color⟩
      with hst
    set doc2 : List Page :=
      modifyAt doc p.toNat (fun pg => stampPage pg pt
        (renderFmt fmt (startNumber + idx) totalSel) fontSize color) with hdoc2
    have hdoc2len : doc2.length = doc.length := modifyAt_length doc _ _
    obtain ⟨d, tr2, hgo, hdlen, htrlen, htrace, hgrow, hmem⟩ := ih doc2 (idx + 1)
      (by
        intro x hx
        have := hbd x (List.mem_cons_of_mem _ hx)
        rw [hdoc2len]
        exact this)
    have hpmem : doc[p.toNat]? = some (doc.get ⟨p.toNat, by omega⟩) := by
      rw [List.get_eq_getElem]
      exact List.getElem?_eq_getElem (by omega)
    refine ⟨d, (p.toNat, renderFmt fmt (startNumber + idx) totalSel) :: tr2,
      ?_, ?_, ?_, ?_, ?_, ?_⟩
    · simp only [addNumbersGo, hpt, ← hdoc2, hgo]
    · rw [hdlen, hdoc2len]
    · simp [htrlen]
    · intro j
      cases j with
      | zero => simp
      | succ m =>
        simp only [List.getElem?_cons_succ]
        rw [htrace m,
          show startNumber + (idx + 1) + (m : Int) =
            startNumber + idx + ((m + 1 : Nat) : Int) from by push_cast; ring]
    · intro i
      obtain ⟨ex, hex⟩ := hgrow i
      by_cases hip : i = p.toNat
      · subst hip
        refine ⟨[st] ++ ex, ?_⟩
        rw [hex, hdoc2, modifyAt_getElem?_self]
        rw [hpmem]
        simp [stampPage, hst, List.append_assoc]
      · refine ⟨ex, ?_⟩
        rw [hex, hdoc2, modifyAt_getElem?_ne doc p.toNat i _ hip]
    · intro j q hq
      cases j with
      | zero =>
        simp only [List.getElem?_cons_zero, Option.some_inj] at hq
        subst hq
        obtain ⟨ex, hex⟩ := hgrow p.toNat
        rw [hdoc2, modifyAt_getElem?_self, hpmem] at hex
        simp only [Option.map_some'] at hex
        refine ⟨_, hex, ?_⟩
        rw [show startNumber + idx + ((0 : Nat) : Int) = startNumber + idx from by simp]
        simp [stampPage, hst]
      | succ m =>
        simp only [List.getElem?_cons_succ] at hq
        obtain ⟨pg, hpg, htxt⟩ := hmem m q hq
        refine ⟨pg, hpg, ?_⟩
        have : startNumber + idx + ((m + 1 : Nat) : Int) =
            startNumber + (idx + 1) + (m : Int) := by
          push_cast
          ring
        rw [this]
        exact htxt

/-- Claim C9: with an explicit non-empty pages list, add_page_numbers
succeeds, the total placeholder of the format string expands to the number
of selected pages (the length of the list, not the document page count),
and the idx-th selected page in list order is stamped with number
start_number + idx.  With an empty selection nothing is stamped and the
final save raises exactly when the document has zero pages. -/
theorem add_page_numbers_selected_spec (doc : List Page) (position : String)
    (fontSize : ℚ) (color : ℚ × ℚ × ℚ) (fmt : List FmtItem)
    (startNumber : Int) (ps : List Int)
    (hpos : position ∈ ["bottom-right", "bottom-center", "bottom-left",
      "top-right", "top-center", "top-left"])
    (hps : ∀ p ∈ ps, 1 ≤ p ∧ p ≤ (doc.length : Int)) :
    (ps ≠ [] → ∃ d tr,
      add_page_numbers doc position fontSize color fmt startNumber (.list ps)
        = .ok (d, tr) ∧
      tr.length = ps.length ∧
      (∀ j : Nat, tr[j]? = (ps[j]?).map
        (fun p => ((p - 1).toNat,
          renderFmt fmt (startNumber + (j : Int)) ps.length))) ∧
      (∀ (j : Nat) (p : Int), ps[j]? = some p →
        ∃ pg, d[(p - 1).toNat]? = some pg ∧
          renderFmt fmt (startNumber + (j : Int)) ps.length ∈
            pg.stamps.map Stamp.text)) ∧
    (ps = [] →
      (doc = [] →
        add_page_numbers doc position fontSize color fmt startNumber (.list ps)
          = .error "cannot save with zero pages") ∧
      (doc ≠ [] →
        add_page_numbers doc position fontSize color fmt startNumber (.list ps)
          = .ok (doc, []))) := by
  have hpos2 : ∀ r : Rect, (pageNumberPoint position r).isSome := by
    simp only [List.mem_cons, List.not_mem_nil, or_false] at hpos
    rcases hpos with rfl | rfl | rfl | rfl | rfl | rfl <;>
      intro r <;> simp [pageNumberPoint]
  have hnone : (ps.map (fun p => p - 1)).find?
      (fun q => decide (q < 0) || decide ((doc.length : Int) ≤ q)) = none := by
    rw [List.find?_eq_none]
    intro x hx
    obtain ⟨p, hp, rfl⟩ := List.mem_map.mp hx
    have := hps p hp
    simp only [Bool.or_eq_true, decide_eq_true_eq]
    omega
  constructor
  · intro hne
    obtain ⟨p0, hp0⟩ := List.exists_mem_of_ne_nil ps hne
    have hdocpos : 0 < doc.length := by
      have := hps p0 hp0
      omega
    obtain ⟨d, tr, hgo, hdlen, htrlen, htrace, hgrow, hmem⟩ :=
      addNumbersGo_ok position fontSize color fmt startNumber
        (ps.map (fun p => p - 1)).length hpos2 (ps.map (fun p => p - 1)) doc 0
        (by
          intro x hx
          obtain ⟨p, hp, rfl⟩ := List.mem_map.mp hx
          have := hps p hp
          omega)
    have hdne : d.isEmpty = false :=
      isEmpty_false_of_length_pos (by omega)
    refine ⟨d, tr, ?_, ?_, ?_, ?_⟩
    · simp only [add_page_numbers, hnone, hgo, hdne, Bool.false_eq_true, if_false]
    · rw [htrlen, List.length_map]
    · intro j
      rw [htrace j, List.getElem?_map, Option.map_map]
      cases hpj : ps[j]? with
      | none => simp
      | some p =>
        simp only [Option.map_some', Option.some_inj, Function.comp]
        rw [List.length_map, add_zero]
    · intro j p hpj
      have hmj : (ps.map (fun p => p - 1))[j]? = some (p - 1) := by
        rw [List.getElem?_map, hpj]
        rfl
      obtain ⟨pg, hpg, htxt⟩ := hmem j (p - 1) hmj
      refine ⟨pg, hpg, ?_⟩
      rw [List.length_map, add_zero] at htxt
      exact htxt
  · intro hps_nil
    subst hps_nil
    constructor
    · intro hd
      subst hd
      rfl
    · intro hd
      cases doc with
      | nil => exact absurd rfl hd
      | cons a t => rfl

/-- Witness for claim C9 at a concrete five-page document, selected pages
[2, 4], the format "Page p of t" and start number 1. -/
theorem add_page_numbers_selected_spec_witness :
    ∃ d tr,
      add_page_numbers sampleDoc5 "bottom-right" 10 (0, 0, 0)
        [FmtItem.lit "Page ", FmtItem.pageNum, FmtItem.lit " of ",
          FmtItem.totalNum] 1 (.list [2, 4]) = .ok (d, tr) ∧
      tr.length = ([(2 : Int), 4] : List Int).length ∧
      (∀ j : Nat, tr[j]? = (([(2 : Int), 4] : List Int)[j]?).map
        (fun p => ((p - 1).toNat,
          renderFmt [FmtItem.lit "Page ", FmtItem.pageNum, FmtItem.lit " of ",
            FmtItem.totalNum] (1 + (j : Int)) ([(2 : Int), 4] : List Int).length))) ∧
      (∀ (j : Nat) (p : Int), ([(2 : Int), 4] : List Int)[j]? = some p →
        ∃ pg, d[(p - 1).toNat]? = some pg ∧
          renderFmt [FmtItem.lit "Page ", FmtItem.pageNum, FmtItem.lit " of ",
            FmtItem.totalNum] (1 + (j : Int)) ([(2 : Int), 4] : List Int).length ∈
            pg.stamps.map Stamp.text) :=
  (add_page_numbers_selected_spec sampleDoc5 "bottom-right" 10 (0, 0, 0)
    [FmtItem.lit "Page ", FmtItem.pageNum, FmtItem.lit " of ", FmtItem.totalNum]
    1 [2, 4] (by decide) (by decide)).1 (by decide)

lemma rangeStep_length (stop step : Nat) (hstep : 0 < step) :
    ∀ (k start : Nat), stop - start ≤ k →
    (rangeStep start stop step).length = (stop - start + step - 1) / step := by
  intro k
  induction k with
  | zero =>
    intro start hk
    rw [rangeStep, dif_neg (by omega : ¬ (0 < step ∧ start < stop))]
    rw [show (stop - start + step - 1) / step = 0 from Nat.div_eq_of_lt (by omega)]
    rfl
  | succ k ih =>
    intro start hk
    by_cases hst : start < stop
    · rw [rangeStep, dif_pos ⟨hstep, hst⟩, List.length_cons, ih (start + step) (by omega)]
      have e1 : stop - start + step - 1 = (stop - start - 1) + step := by omega
      rw [e1, Nat.add_div_right _ hstep]
      have e2 : stop - (start + step) = stop - start - step := by omega
      rw [e2]
      by_cases hdc : step < stop - start
      · rw [show stop - start - step + step - 1 = stop - start - 1 from by omega]
      · rw [show stop - start - step = 0 from by omega]
        rw [Nat.div_eq_of_lt (by omega), Nat.div_eq_of_lt (by omega)]
    · rw [rangeStep, dif_neg (by omega : ¬ (0 < step ∧ start < stop))]
      rw [show (stop - start + step - 1) / step = 0 from Nat.div_eq_of_lt (by omega)]
      rfl

/-- Claim C10: on a non-empty document with positive grid dimensions,
create_nup succeeds and produces exactly ceil(K / (n_cols*n_rows)) sheets
of the fixed A4 size selected by the orientation; every placement on every
sheet is scaled by the single factor computed from the first source page
rectangle alone, and each placed source index is in range; on an empty
document the first-page access raises before any output exists. -/
theorem create_nup_spec (src : List Page) (n_cols n_rows : Nat)
    (orientation : String) (hc : 0 < n_cols) (hr : 0 < n_rows)
    (hne : src ≠ []) :
    (∃ p0 rest, src = p0 :: rest ∧ ∃ sheets,
      create_nup src n_cols n_rows orientation = .ok sheets ∧
      sheets.length = (src.length + n_cols * n_rows - 1) / (n_cols * n_rows) ∧
      (∀ sh ∈ sheets,
        sh.width = (if orientation.toLower = "landscape" then (842 : ℚ) else 595) ∧
        sh.height = (if orientation.toLower = "landscape" then (595 : ℚ) else 842) ∧
        ∀ pl ∈ sh.placements,
          pl.target.width = p0.rect.width * nupScale p0 n_cols n_rows orientation ∧
          pl.target.height = p0.rect.height * nupScale p0 n_cols n_rows orientation ∧
          pl.src_idx < src.length)) ∧
    create_nup [] n_cols n_rows orientation =
      .error "IndexError: page not in document" := by
  refine ⟨?_, rfl⟩
  cases src with
  | nil => exact absurd rfl hne
  | cons p0 rest =>
    refine ⟨p0, rest, rfl, ?_⟩
    have hstep : 0 < n_cols * n_rows := Nat.mul_pos hc hr
    have hok : create_nup (p0 :: rest) n_cols n_rows orientation =
        .ok ((rangeStep 0 (p0 :: rest).length (n_cols * n_rows)).map (fun i =>
          { width := if orientation.toLower = "landscape" then (842 : ℚ) else 595
            height := if orientation.toLower = "landscape" then (595 : ℚ) else 842
            placements := (List.range n_rows).flatMap (fun row =>
              ((List.range n_cols).takeWhile
                  (fun col => decide (i + row * n_cols + col <
                    (p0 :: rest).length))).map
                (fun col =>
                  { src_idx := i + row * n_cols + col
                    target :=
                      ⟨20 + (col : ℚ) * (p0.rect.width *
                          nupScale p0 n_cols n_rows orientation + 10),
                        20 + (row : ℚ) * (p0.rect.height *
                          nupScale p0 n_cols n_rows orientation + 10),
                        20 + (col : ℚ) * (p0.rect.width *
                          nupScale p0 n_cols n_rows orientation + 10) +
                          p0.rect.width * nupScale p0 n_cols n_rows orientation,
                        20 + (row : ℚ) * (p0.rect.height *
                          nupScale p0 n_cols n_rows orientation + 10) +
                          p0.rect.height * nupScale p0 n_cols n_rows orientation⟩
                    : Placement })) : Sheet })) := by
      rw [create_nup, if_neg (by omega : ¬ (n_cols = 0 ∨ n_rows = 0))]
    refine ⟨_, hok, ?_, ?_⟩
    · rw [List.length_map,
        rangeStep_length (p0 :: rest).length (n_cols * n_rows) hstep
          (p0 :: rest).length 0 (by omega)]
      simp
    · intro sh hsh
      obtain ⟨i, hi, rfl⟩ := List.mem_map.mp hsh
      refine ⟨rfl, rfl, ?_⟩
      intro pl hpl
      obtain ⟨row, hrow, hplm⟩ := List.mem_flatMap.mp hpl
      obtain ⟨col, hcol, rfl⟩ := List.mem_map.mp hplm
      have hidx : i + row * n_cols + col < (p0 :: rest).length := by
        have := List.mem_takeWhile_imp hcol
        simpa using this
      refine ⟨?_, ?_, hidx⟩
      · show (20 + (col : ℚ) * (p0.rect.width *
            nupScale p0 n_cols n_rows orientation + 10) +
            p0.rect.width * nupScale p0 n_cols n_rows orientation) -
          (20 + (col : ℚ) * (p0.rect.width *
            nupScale p0 n_cols n_rows orientation + 10)) =
          p0.rect.width * nupScale p0 n_cols n_rows orientation
        ring
      · show (20 + (row : ℚ) * (p0.rect.height *
            nupScale p0 n_cols n_rows orientation + 10) +
            p0.rect.height * nupScale p0 n_cols n_rows orientation) -
          (20 + (row : ℚ) * (p0.rect.height *
            nupScale p0 n_cols n_rows orientation + 10)) =
          p0.rect.height * nupScale p0 n_cols n_rows orientation
        ring

/-- Witness for claim C10 at a concrete three-page document in a 2x2
portrait grid. -/
theorem create_nup_spec_witness :
    (∃ p0 rest, [samplePage 0, samplePage 1, samplePage 2] = p0 :: rest ∧
      ∃ sheets, create_nup [samplePage 0, samplePage 1, samplePage 2] 2 2
          "portrait" = .ok sheets ∧
        sheets.length = (([samplePage 0, samplePage 1, samplePage 2] :
          List Page).length + 2 * 2 - 1) / (2 * 2) ∧
        (∀ sh ∈ sheets,
          sh.width = (if String.toLower "portrait" = "landscape"
            then (842 : ℚ) else 595) ∧
          sh.height = (if String.toLower "portrait" = "landscape"
            then (595 : ℚ) else 842) ∧
          ∀ pl ∈ sh.placements,
            pl.target.width = p0.rect.width * nupScale p0 2 2 "portrait" ∧
            pl.target.height = p0.rect.height * nupScale p0 2 2 "portrait" ∧
            pl.src_idx < ([samplePage 0, samplePage 1, samplePage 2] :
              List Page).length)) ∧
    create_nup [] 2 2 "portrait" = .error "IndexError: page not in document" :=
  create_nup_spec [samplePage 0, samplePage 1, samplePage 2] 2 2 "portrait"
    (by decide) (by decide) (by decide)
